import Mathlib

/-!
Verification of the satellite onboard control software (satellite_ocs +
shared_protocol) against its natural-language specification.  The Rust
sources are shallowly embedded: pure data types become Lean structures,
stateful components become explicit state-passing functions, `f64` values
that are only compared or carried become `ℚ`, machine integers become `Nat`
(with wrapping made explicit where the source wraps), and fallible code
returns `Option`/`Except`.
-/

namespace RTS

/-! ## Shared data model (shared_protocol/src/lib.rs) -/

/-- Priority of a sensor reading (`enum Priority`). -/
inductive Priority where
  | emergency
  | critical
  | important
  | normal
deriving DecidableEq

/-- Quality of a sensor reading (`enum Quality`). -/
inductive Quality where
  | excellent
  | good
  | fair
  | poor
  | invalid
deriving DecidableEq

/-- Health status of a reading (`enum Status`). -/
inductive Status where
  | normal
  | warning
  | critical
  | emergency
  | error
deriving DecidableEq

/-- Sensor kind (`enum SensorType`). -/
inductive SensorType where
  | thermal
  | power
  | attitude
deriving DecidableEq

/-- Severity of an emergency alert (`enum Severity`). -/
inductive Severity where
  | low
  | medium
  | high
  | critical
deriving DecidableEq

/-- A telemetry record (`struct SensorReading`).  `f64` slots are embedded as
`ℚ`, timestamps as milliseconds (`Nat`), and the metadata `HashMap` as an
association list. -/
structure SensorReading where
  sensor_id : Nat
  sensor_type : SensorType
  description : String
  location : String
  timestamp : Nat
  sequence_number : Nat
  value1 : ℚ
  value2 : ℚ
  value3 : ℚ
  value4 : ℚ
  priority : Priority
  quality : Quality
  status : Status
  processing_latency_ms : ℚ
  jitter_ms : ℚ
  drift_ms : ℚ
  metadata : List (String × String)
deriving DecidableEq

/-! ## Priority telemetry buffer (satellite_ocs/src/telemetry/prio_buffer.rs) -/

/-- Result of inserting into the bounded buffer (`enum InsertResult`). -/
inductive InsertResult where
  | accepted
  | dropped (dropped_priority : Priority) (dropped_count : Nat)
deriving DecidableEq

/-- The guarded buffer state (`struct Inner`): three FIFO buckets plus the
fixed capacity. -/
structure Inner where
  capacity : Nat
  hi : List SensorReading
  im : List SensorReading
  lo : List SensorReading
deriving DecidableEq

/-- Total number of buffered readings, `hi.len() + im.len() + lo.len()`. -/
def Inner.total (g : Inner) : Nat :=
  g.hi.length + g.im.length + g.lo.length

/-- A fresh buffer (`BufferHandle::new`). -/
def Inner.empty (capacity : Nat) : Inner :=
  ⟨capacity, [], [], []⟩

/-- The eviction block of `BufferHandle::push` (lines 69-84): drop the front
of the lowest non-empty bucket, reporting `Normal`, `Important` or `Critical`
as the dropped priority tag. -/
def evictLowest (g : Inner) : Inner × Option Priority :=
  if g.lo ≠ [] then ({ g with lo := g.lo.tail }, some Priority.normal)
  else if g.im ≠ [] then ({ g with im := g.im.tail }, some Priority.important)
  else if g.hi ≠ [] then ({ g with hi := g.hi.tail }, some Priority.critical)
  else (g, none)

/-- The final `match target_q` of `BufferHandle::push` (lines 86-90):
append the reading to the bucket selected by its priority. -/
def appendTarget (g : Inner) (r : SensorReading) : Inner :=
  match r.priority with
  | .emergency => { g with hi := g.hi ++ [r] }
  | .critical => { g with hi := g.hi ++ [r] }
  | .important => { g with im := g.im ++ [r] }
  | .normal => { g with lo := g.lo ++ [r] }

/-- `BufferHandle::push`: evict from the lowest non-empty bucket when
`total >= capacity`, then append to the target bucket. -/
def push (g : Inner) (r : SensorReading) : Inner × InsertResult :=
  let p := if g.total ≥ g.capacity then evictLowest g else (g, none)
  let g2 := appendTarget p.1 r
  match p.2 with
  | some dp => (g2, .dropped dp 1)
  | none => (g2, .accepted)

/-- The `take_from` closure of `BufferHandle::pop_many`: pop up to `need`
readings off the front of one bucket, returning them with the remainder. -/
def takeFrom : List SensorReading → Nat → List SensorReading × List SensorReading
  | q, 0 => ([], q)
  | [], _ + 1 => ([], [])
  | x :: q, n + 1 =>
    let p := takeFrom q n
    (x :: p.1, p.2)

/-- `BufferHandle::pop_many`: drain up to `n` readings, `hi` first, then
`im`, then `lo`. -/
def pop_many (g : Inner) (n : Nat) : List SensorReading × Inner :=
  let p1 := takeFrom g.hi n
  let need1 := n - p1.1.length
  let p2 := if need1 > 0 then takeFrom g.im need1 else ([], g.im)
  let need2 := need1 - p2.1.length
  let p3 := if need2 > 0 then takeFrom g.lo need2 else ([], g.lo)
  (p1.1 ++ p2.1 ++ p3.1, { g with hi := p1.2, im := p2.2, lo := p3.2 })

/-- One client operation on the buffer handle. -/
inductive BufOp where
  | pushOp (r : SensorReading)
  | popManyOp (n : Nat)

/-- Apply one buffer operation to the state. -/
def stepBuf (g : Inner) : BufOp → Inner
  | .pushOp r => (push g r).1
  | .popManyOp n => (pop_many g n).2

/-- Run a sequence of buffer operations from a state. -/
def runBuf (g : Inner) (ops : List BufOp) : Inner :=
  ops.foldl stepBuf g

/-! ### Buffer helper lemmas -/

theorem appendTarget_total (g : Inner) (r : SensorReading) :
    (appendTarget g r).total = g.total + 1 := by
  cases h : r.priority <;> simp [appendTarget, h, Inner.total] <;> omega

theorem appendTarget_capacity (g : Inner) (r : SensorReading) :
    (appendTarget g r).capacity = g.capacity := by
  cases h : r.priority <;> simp [appendTarget, h]

theorem evictLowest_fields (g : Inner) :
    (evictLowest g).1 = { g with lo := g.lo.tail } ∨
    (evictLowest g).1 = { g with im := g.im.tail } ∨
    (evictLowest g).1 = { g with hi := g.hi.tail } ∨
    (evictLowest g).1 = g := by
  unfold evictLowest
  by_cases hlo : g.lo ≠ []
  · left; simp [hlo]
  · by_cases him : g.im ≠ []
    · right; left; simp [hlo, him]
    · by_cases hhi : g.hi ≠ []
      · right; right; left; simp [hlo, him, hhi]
      · right; right; right; simp [hlo, him, hhi]

theorem evictLowest_total (g : Inner) (h : 0 < g.total) :
    (evictLowest g).1.total = g.total - 1 := by
  rcases g with ⟨cap, hi, im, lo⟩
  simp only [Inner.total] at h
  cases lo with
  | cons x xs => simp [evictLowest, Inner.total]
  | nil =>
    cases im with
    | cons y ys => simp [evictLowest, Inner.total]
    | nil =>
      cases hi with
      | cons z zs => simp [evictLowest, Inner.total]
      | nil => simp at h

theorem evictLowest_capacity (g : Inner) :
    (evictLowest g).1.capacity = g.capacity := by
  rcases evictLowest_fields g with h | h | h | h <;> rw [h]

theorem push_total_le (g : Inner) (r : SensorReading)
    (hcap : 1 ≤ g.capacity) (hinv : g.total ≤ g.capacity) :
    (push g r).1.total ≤ g.capacity := by
  unfold push
  by_cases hfull : g.total ≥ g.capacity
  · have htot : 0 < g.total := lt_of_lt_of_le hcap hfull
    have h1 := evictLowest_total g htot
    rcases hev : evictLowest g with ⟨g1, dp⟩
    have h1' : g1.total = g.total - 1 := by rw [hev] at h1; exact h1
    cases dp <;> simp [hfull, hev, appendTarget_total, h1'] <;> omega
  · simp [hfull, appendTarget_total]
    omega

theorem push_capacity (g : Inner) (r : SensorReading) :
    (push g r).1.capacity = g.capacity := by
  unfold push
  by_cases hfull : g.total ≥ g.capacity
  · rcases hev : evictLowest g with ⟨g1, dp⟩
    have hc : g1.capacity = g.capacity := by
      have h0 := evictLowest_capacity g
      rw [hev] at h0
      exact h0
    cases dp <;> simp [hfull, hev, appendTarget_capacity, hc]
  · simp [hfull, appendTarget_capacity]

theorem takeFrom_eq (q : List SensorReading) (n : Nat) :
    takeFrom q n = (q.take n, q.drop n) := by
  induction q generalizing n with
  | nil => cases n <;> rfl
  | cons x xs ih =>
    cases n with
    | zero => rfl
    | succ m => simp [takeFrom, ih]

theorem ifTake_eq (q : List SensorReading) (m : Nat) :
    (if m > 0 then (q.take m, q.drop m) else ([], q)) = (q.take m, q.drop m) := by
  by_cases h : m > 0
  · simp [h]
  · have h0 : m = 0 := by omega
    subst h0
    simp

theorem take_three (hi im lo : List SensorReading) (n : Nat) :
    (hi ++ im ++ lo).take n
      = hi.take n ++ im.take (n - hi.length) ++ lo.take (n - hi.length - im.length) := by
  rw [List.take_append_eq_append_take, List.take_append_eq_append_take]
  simp [Nat.sub_sub]

theorem pop_many_eq (g : Inner) (n : Nat) :
    pop_many g n =
      ((g.hi ++ g.im ++ g.lo).take n,
        { g with
          hi := g.hi.drop n
          im := g.im.drop (n - g.hi.length)
          lo := g.lo.drop (n - g.hi.length - g.im.length) }) := by
  have e1 : ∀ m : Nat, n - min n m = n - m := by intro m; omega
  have e2 : n - g.hi.length - min (n - g.hi.length) g.im.length
      = n - g.hi.length - g.im.length := by omega
  simp only [pop_many, takeFrom_eq, ifTake_eq, List.length_take, e1, e2, take_three]

/-- Bucket purity: `hi` holds only emergency/critical readings, `im` only
important ones, `lo` only normal ones. -/
def WellBucketed (g : Inner) : Prop :=
  (∀ r ∈ g.hi, r.priority = .emergency ∨ r.priority = .critical) ∧
  (∀ r ∈ g.im, r.priority = .important) ∧
  (∀ r ∈ g.lo, r.priority = .normal)

theorem wellBucketed_empty (capacity : Nat) : WellBucketed (Inner.empty capacity) := by
  refine ⟨?_, ?_, ?_⟩ <;> intro r hr <;> simp [Inner.empty] at hr

theorem wellBucketed_appendTarget (g : Inner) (r : SensorReading)
    (h : WellBucketed g) : WellBucketed (appendTarget g r) := by
  obtain ⟨h1, h2, h3⟩ := h
  cases hp : r.priority <;>
    refine ⟨?_, ?_, ?_⟩ <;> intro x hx <;>
    simp [appendTarget, hp] at hx <;>
    first
    | (rcases hx with hx | hx
       · first | exact h1 x hx | exact h2 x hx | exact h3 x hx
       · subst hx; simp [hp])
    | exact h1 x hx
    | exact h2 x hx
    | exact h3 x hx

theorem wellBucketed_evictLowest (g : Inner) (h : WellBucketed g) :
    WellBucketed (evictLowest g).1 := by
  obtain ⟨h1, h2, h3⟩ := h
  rcases evictLowest_fields g with hf | hf | hf | hf <;> rw [hf]
  · exact ⟨h1, h2, fun x hx => h3 x (List.mem_of_mem_tail hx)⟩
  · exact ⟨h1, fun x hx => h2 x (List.mem_of_mem_tail hx), h3⟩
  · exact ⟨fun x hx => h1 x (List.mem_of_mem_tail hx), h2, h3⟩
  · exact ⟨h1, h2, h3⟩

theorem wellBucketed_push (g : Inner) (r : SensorReading) (h : WellBucketed g) :
    WellBucketed (push g r).1 := by
  unfold push
  by_cases hfull : g.total ≥ g.capacity
  · rcases hev : evictLowest g with ⟨g1, dp⟩
    have hg1 : WellBucketed g1 := by
      have := wellBucketed_evictLowest g h
      rw [hev] at this
      exact this
    cases dp <;> simp [hfull, hev] <;> exact wellBucketed_appendTarget _ _ hg1
  · simp [hfull]
    exact wellBucketed_appendTarget _ _ h

theorem wellBucketed_pop_many (g : Inner) (n : Nat) (h : WellBucketed g) :
    WellBucketed (pop_many g n).2 := by
  obtain ⟨h1, h2, h3⟩ := h
  rw [pop_many_eq]
  exact ⟨fun x hx => h1 x (List.mem_of_mem_drop hx),
    fun x hx => h2 x (List.mem_of_mem_drop hx),
    fun x hx => h3 x (List.mem_of_mem_drop hx)⟩

theorem wellBucketed_runBuf (capacity : Nat) (ops : List BufOp) :
    WellBucketed (runBuf (Inner.empty capacity) ops) := by
  have key : ∀ (ops : List BufOp) (g : Inner), WellBucketed g → WellBucketed (runBuf g ops) := by
    intro ops
    induction ops with
    | nil => intro g hg; exact hg
    | cons op rest ih =>
      intro g hg
      cases op with
      | pushOp r => exact ih _ (wellBucketed_push g r hg)
      | popManyOp n => exact ih _ (wellBucketed_pop_many g n hg)
  exact key ops _ (wellBucketed_empty capacity)

theorem pop_many_total_le (g : Inner) (n : Nat) :
    (pop_many g n).2.total ≤ g.total := by
  rw [pop_many_eq]
  simp only [Inner.total, List.length_drop]
  omega

theorem pop_many_capacity (g : Inner) (n : Nat) :
    (pop_many g n).2.capacity = g.capacity := by
  rw [pop_many_eq]

/-- A concrete reading with the given priority and sequence number, used in
concrete counterexamples and demos. -/
def mkReading (p : Priority) (seqn : Nat) : SensorReading :=
  { sensor_id := 1, sensor_type := .thermal, description := "", location := "",
    timestamp := 0, sequence_number := seqn,
    value1 := 0, value2 := 0, value3 := 0, value4 := 0,
    priority := p, quality := .good, status := .normal,
    processing_latency_ms := 0, jitter_ms := 0, drift_ms := 0, metadata := [] }

/-! ### Claim C1 -/

/-- C1 counterexample: a buffer constructed with capacity `N = 0` exceeds its
capacity on the very first push — the eviction branch finds all three buckets
empty, evicts nothing, and the reading is still appended, so the total
becomes `1 > 0`.  This refutes the claim for `N = 0`. -/
theorem c1_counterexample :
    (runBuf (Inner.empty 0) [BufOp.pushOp (mkReading .normal 0)]).total = 1
    ∧ (Inner.empty 0).capacity = 0 := by
  constructor <;> rfl

/-- C1 (amended): for every capacity `N ≥ 1` and every sequence of `push` and
`pop_many` operations, the total number of buffered readings never exceeds
`N` (push itself is a total function — it never blocks). -/
theorem c1_capacity_invariant (N : Nat) (hN : 1 ≤ N) (ops : List BufOp) :
    (runBuf (Inner.empty N) ops).total ≤ N := by
  have key : ∀ (ops : List BufOp) (g : Inner),
      g.capacity = N → g.total ≤ N → (runBuf g ops).total ≤ N := by
    intro ops
    induction ops with
    | nil => intro g _ h; exact h
    | cons op rest ih =>
      intro g hc ht
      cases op with
      | pushOp r =>
        have h1 : (push g r).1.capacity = N := by rw [push_capacity, hc]
        have h2 : (push g r).1.total ≤ N := by
          have h3 := push_total_le g r (by rw [hc]; exact hN) (by rw [hc]; exact ht)
          rw [hc] at h3
          exact h3
        exact ih _ h1 h2
      | popManyOp n =>
        have h1 : (pop_many g n).2.capacity = N := by rw [pop_many_capacity, hc]
        have h2 : (pop_many g n).2.total ≤ N := le_trans (pop_many_total_le g n) ht
        exact ih _ h1 h2
  exact key ops _ rfl (by simp [Inner.empty, Inner.total])

/-- Witness for C1 at `N = 1` with two pushes. -/
theorem c1_capacity_invariant_witness :
    (runBuf (Inner.empty 1)
      [BufOp.pushOp (mkReading .normal 0), BufOp.pushOp (mkReading .critical 1)]).total ≤ 1 :=
  c1_capacity_invariant 1 (by decide) _

/-! ### Claim C5 -/

/-- Written from the specification's words: evict one element from the lowest
non-empty bucket, in the order `lo` then `im` then `hi`. -/
def evict_spec (g : Inner) : Inner :=
  if g.lo ≠ [] then { g with lo := g.lo.tail }
  else if g.im ≠ [] then { g with im := g.im.tail }
  else { g with hi := g.hi.tail }

/-- Written from the specification's words: the priority tag reported for the
evicted bucket (`Normal` for `lo`, `Important` for `im`, `Critical` for `hi`). -/
def dropped_spec (g : Inner) : Priority :=
  if g.lo ≠ [] then .normal
  else if g.im ≠ [] then .important
  else .critical

/-- Written from the specification's words: if total < capacity, append to the
bucket matching the reading's priority and accept; if full, evict from the
lowest non-empty bucket, append, and report one drop. -/
def push_spec (g : Inner) (r : SensorReading) : Inner × InsertResult :=
  if g.total < g.capacity then (appendTarget g r, .accepted)
  else (appendTarget (evict_spec g) r, .dropped (dropped_spec g) 1)

theorem evictLowest_eq_spec (g : Inner) (h : 0 < g.total) :
    evictLowest g = (evict_spec g, some (dropped_spec g)) := by
  rcases g with ⟨cap, hi, im, lo⟩
  simp only [Inner.total] at h
  cases lo with
  | cons x xs => simp [evictLowest, evict_spec, dropped_spec]
  | nil =>
    cases im with
    | cons y ys => simp [evictLowest, evict_spec, dropped_spec]
    | nil =>
      cases hi with
      | cons z zs => simp [evictLowest, evict_spec, dropped_spec]
      | nil => simp at h

/-- C5 counterexample: a buffer of capacity 0 is full while empty
(`total = capacity = 0`), yet push evicts nothing and returns `Accepted`,
not `Dropped` — refuting the full-buffer clause of the claim as stated. -/
theorem c5_counterexample :
    (Inner.empty 0).total = (Inner.empty 0).capacity
    ∧ (push (Inner.empty 0) (mkReading .normal 0)).2 = .accepted := by
  constructor <;> rfl

/-- C5 (amended): on every buffer with capacity ≥ 1, push behaves exactly as
the specification's contract `push_spec` (append-and-accept when below
capacity; evict the oldest element of the lowest non-empty bucket, append,
and report `Dropped` with that bucket's priority tag and count 1 when full);
and the capacity-3 eviction demo ends in state `{hi:[C], im:[I], lo:[N]}`. -/
theorem c5_push_contract :
    (∀ (g : Inner) (r : SensorReading), 1 ≤ g.capacity → push g r = push_spec g r)
    ∧ runBuf (Inner.empty 3)
        [ .pushOp (mkReading .normal 1), .pushOp (mkReading .normal 2),
          .pushOp (mkReading .important 3), .pushOp (mkReading .critical 4) ]
      = ⟨3, [mkReading .critical 4], [mkReading .important 3], [mkReading .normal 2]⟩ := by
  constructor
  · intro g r hcap
    unfold push push_spec
    by_cases hlt : g.total < g.capacity
    · have hge : ¬ g.total ≥ g.capacity := by omega
      simp [hlt, hge]
    · have hge : g.total ≥ g.capacity := by omega
      have htot : 0 < g.total := by omega
      simp [hlt, hge, evictLowest_eq_spec g htot]
  · rfl

/-- Witness for C5 on a concrete non-full buffer. -/
theorem c5_push_contract_witness :
    push (Inner.empty 2) (mkReading .important 5)
      = push_spec (Inner.empty 2) (mkReading .important 5) :=
  c5_push_contract.1 (Inner.empty 2) (mkReading .important 5) (by decide)

/-! ### Claim C6 -/

/-- C6: `pop_many n` returns the first `min n total` readings of
`hi ++ im ++ lo` (so strictly `hi` first, then `im`, then `lo`, preserving
per-bucket FIFO), removes exactly those readings from the buffer, and on
every reachable buffer holding an emergency/critical reading the first
reading returned (for `n ≥ 1`) is emergency or critical. -/
theorem c6_pop_many_priority_order :
    (∀ (g : Inner) (n : Nat),
        pop_many g n
          = ((g.hi ++ g.im ++ g.lo).take n,
              { g with
                hi := g.hi.drop n
                im := g.im.drop (n - g.hi.length)
                lo := g.lo.drop (n - g.hi.length - g.im.length) }))
    ∧ (∀ (g : Inner) (n : Nat), (pop_many g n).1.length = min n g.total)
    ∧ (∀ (capacity : Nat) (ops : List BufOp) (n : Nat) (r : SensorReading),
        1 ≤ n →
        r ∈ (runBuf (Inner.empty capacity) ops).hi
            ++ (runBuf (Inner.empty capacity) ops).im
            ++ (runBuf (Inner.empty capacity) ops).lo →
        (r.priority = .emergency ∨ r.priority = .critical) →
        ∃ x, (pop_many (runBuf (Inner.empty capacity) ops) n).1.head? = some x
          ∧ (x.priority = .emergency ∨ x.priority = .critical)) := by
  refine ⟨pop_many_eq, ?_, ?_⟩
  · intro g n
    rw [pop_many_eq]
    simp only [List.length_take, List.length_append, Inner.total]
  · intro capacity ops n r hn hr hpr
    obtain ⟨hwb1, hwb2, hwb3⟩ := wellBucketed_runBuf capacity ops
    rcases hmem : (runBuf (Inner.empty capacity) ops).hi with _ | ⟨h0, t0⟩
    · exfalso
      rw [List.mem_append, List.mem_append] at hr
      rcases hr with (hr | hr) | hr
      · rw [hmem] at hr
        simp at hr
      · have hp := hwb2 r hr
        rw [hp] at hpr
        rcases hpr with hpr | hpr <;> exact absurd hpr (by decide)
      · have hp := hwb3 r hr
        rw [hp] at hpr
        rcases hpr with hpr | hpr <;> exact absurd hpr (by decide)
    · refine ⟨h0, ?_, ?_⟩
      · rw [pop_many_eq, hmem]
        cases n with
        | zero => omega
        | succ m => simp
      · exact hwb1 h0 (by rw [hmem]; exact List.mem_cons_self _ _)

/-- Witness for C6: a reachable buffer with one critical reading hands it
back first. -/
theorem c6_pop_many_priority_order_witness :
    ∃ x, (pop_many (runBuf (Inner.empty 2) [.pushOp (mkReading .critical 9)]) 1).1.head? = some x
      ∧ (x.priority = .emergency ∨ x.priority = .critical) :=
  c6_pop_many_priority_order.2.2 2 [.pushOp (mkReading .critical 9)] 1 (mkReading .critical 9)
    (by decide) (by decide) (by decide)

/-! ### Claim C7: thermal reading quality -/

/-- Thermal sensor configuration (`struct ThermalSensor`). -/
structure ThermalSensor where
  sensor_id : Nat
  location : String
  critical_threshold : ℚ
  emergency_threshold : ℚ
  sampling_interval_ms : Nat

/-- `ThermalSensor::new`: thresholds 80 / 85 °C, 20 Hz sampling. -/
def ThermalSensor.new (sensor_id : Nat) (location : String) : ThermalSensor :=
  ⟨sensor_id, location, 80, 85, 50⟩

/-- `ThermalSensor::create_reading` (shared_protocol/src/lib.rs, lines
160-202).  The Rust quality test is `(-50.0..150.0).contains(&t)`, i.e. the
half-open interval `-50 ≤ t < 150`; `Utc::now()` is passed in as `now`. -/
def ThermalSensor.create_reading (s : ThermalSensor) (temperature_celsius : ℚ)
    (sequence_number : Nat) (now : Nat) : SensorReading :=
  let status : Status :=
    if temperature_celsius ≥ s.emergency_threshold then .emergency
    else if temperature_celsius ≥ s.critical_threshold then .critical
    else if temperature_celsius ≥ 60 then .warning
    else .normal
  let priority : Priority :=
    if temperature_celsius ≥ s.emergency_threshold then .emergency
    else if temperature_celsius ≥ s.critical_threshold then .critical
    else .important
  { sensor_id := s.sensor_id
    sensor_type := .thermal
    description := "Temperature sensor at " ++ s.location
    location := s.location
    timestamp := now
    sequence_number := sequence_number
    value1 := temperature_celsius
    value2 := s.critical_threshold
    value3 := s.emergency_threshold
    value4 := 0
    priority := priority
    quality :=
      if -50 ≤ temperature_celsius ∧ temperature_celsius < 150 then .good else .invalid
    status := status
    processing_latency_ms := 0
    jitter_ms := 0
    drift_ms := 0
    metadata := [] }

/-- C7 counterexample: `t = 150` lies inside the closed interval
`[-50, 150]`, yet the reading's quality is `Invalid` — the code uses the
half-open range `-50 ≤ t < 150`. -/
theorem c7_counterexample :
    ((ThermalSensor.new 1 "CPU").create_reading 150 0 0).quality = .invalid
    ∧ ((-50 : ℚ) ≤ 150 ∧ (150 : ℚ) ≤ 150) := by
  refine ⟨rfl, by norm_num, by norm_num⟩

/-- C7 (amended): the reading's quality is `Invalid` iff the temperature lies
outside the half-open interval `[-50, 150)`, i.e. iff `t < -50` or
`t ≥ 150`; `t = -50` is non-invalid but `t = 150` is invalid. -/
theorem c7_quality_invalid_iff (s : ThermalSensor) (t : ℚ) (seqn now : Nat) :
    (s.create_reading t seqn now).quality = .invalid ↔ (t < -50 ∨ 150 ≤ t) := by
  have hq : (s.create_reading t seqn now).quality
      = if -50 ≤ t ∧ t < 150 then Quality.good else Quality.invalid := rfl
  rw [hq]
  by_cases h : (-50 : ℚ) ≤ t ∧ t < 150
  · rw [if_pos h]
    constructor
    · intro hg
      exact absurd hg (by decide)
    · intro hor
      exfalso
      rcases hor with h3 | h3
      · linarith [h.1]
      · linarith [h.2]
  · rw [if_neg h]
    constructor
    · intro _
      by_contra hor
      push_neg at hor
      exact h ⟨by linarith [hor.1], by linarith [hor.2]⟩
    · intro _
      rfl

/-! ## Downlink window state machine (satellite_ocs/src/downlink/mod.rs) -/

/-- Link state (`enum LinkState`); instants are milliseconds. -/
inductive LinkState where
  | closed
  | opening (opened_at : Nat) (init_started : Bool)
  | ready (opened_at : Nat) (ready_at : Nat) (degraded : Bool)
deriving DecidableEq

/-- Event returned to the batcher (`enum DownlinkEvent`). -/
inductive DownlinkEvent where
  | notInWindow
  | missedInit
  | ready
  | readyPrepLate (prep_ms : Nat)
  | readyDegraded
deriving DecidableEq

/-- `Downlink::open`: unconditionally enter
`Opening{opened_at = now, init_started = false}`. -/
def dlOpen (now : Nat) (_s : LinkState) : LinkState :=
  .opening now false

/-- `Downlink::close`: unconditionally enter `Closed`. -/
def dlClose (_s : LinkState) : LinkState :=
  .closed

/-- `Downlink::pre_send` (downlink/mod.rs lines 44-91).  Tokio's
`duration_since` saturates, so `now - opened_at` is truncated
subtraction. -/
def pre_send (now : Nat) : LinkState → LinkState × DownlinkEvent
  | .closed => (.closed, .notInWindow)
  | .opening opened_at init_started =>
    let since_open := now - opened_at
    if since_open > 5 ∧ init_started = false then (.closed, .missedInit)
    else
      let ready_at := now
      let prep_ms := ready_at - opened_at
      if prep_ms > 30 then (.ready opened_at ready_at false, .readyPrepLate prep_ms)
      else (.ready opened_at ready_at false, .ready)
  | .ready opened_at ready_at degraded =>
    let prep_ms := ready_at - opened_at
    if prep_ms > 30 then (.ready opened_at ready_at degraded, .readyPrepLate prep_ms)
    else if degraded then (.ready opened_at ready_at degraded, .readyDegraded)
    else (.ready opened_at ready_at degraded, .ready)

/-- `Downlink::set_degraded`: mutates only the `degraded` flag of `Ready`;
no-op otherwise.  (The Rust parameter is called `on`, a reserved word
here.) -/
def set_degraded (onFlag : Bool) : LinkState → LinkState
  | .ready opened_at ready_at _ => .ready opened_at ready_at onFlag
  | s => s

/-- Downlink states reachable from the initial `Closed` state through the
four operations. -/
inductive ReachableDL : LinkState → Prop where
  | start : ReachableDL .closed
  | openStep (now : Nat) (s : LinkState) : ReachableDL s → ReachableDL (dlOpen now s)
  | closeStep (s : LinkState) : ReachableDL s → ReachableDL (dlClose s)
  | preSendStep (now : Nat) (s : LinkState) : ReachableDL s → ReachableDL (pre_send now s).1
  | setDegradedStep (onFlag : Bool) (s : LinkState) : ReachableDL s → ReachableDL (set_degraded onFlag s)

theorem reachable_opening_not_started (s : LinkState) (h : ReachableDL s) :
    ∀ oa b, s = .opening oa b → b = false := by
  induction h with
  | start => intro oa b hb; cases hb
  | openStep now s _ _ =>
    intro oa b hb
    simp only [dlOpen, LinkState.opening.injEq] at hb
    exact hb.2.symm
  | closeStep s _ _ =>
    intro oa b hb
    simp [dlClose] at hb
  | preSendStep now s _ ih =>
    intro oa b hb
    cases s with
    | closed => simp [pre_send] at hb
    | opening oa0 b0 =>
      by_cases h1 : (now - oa0 > 5 ∧ b0 = false)
      · simp [pre_send, h1] at hb
      · by_cases h2 : now - oa0 > 30
        · simp [pre_send, h1, h2] at hb
        · simp [pre_send, h1, h2] at hb
    | ready oa0 ra0 d0 =>
      by_cases h1 : ra0 - oa0 > 30
      · simp [pre_send, h1] at hb
      · cases d0 <;> simp [pre_send, h1] at hb
  | setDegradedStep onFlag s _ ih =>
    intro oa b hb
    cases s with
    | closed => simp [set_degraded] at hb
    | opening oa0 b0 =>
      simp only [set_degraded, LinkState.opening.injEq] at hb
      rw [← hb.2]
      exact ih oa0 b0 rfl
    | ready oa0 ra0 d0 => simp [set_degraded] at hb

/-- C10: in every reachable downlink state, an `Opening` state has
`init_started = false` (open always creates it false and no operation sets
it true), so the `Opening` branch of `pre_send` is decided solely by whether
`now - opened_at` exceeds 5 ms: past 5 ms it closes with `MissedInit`,
otherwise it becomes `Ready{opened_at, ready_at = now, degraded = false}`
reporting `Ready`. -/
theorem c10_opening_never_initialized (s : LinkState) (h : ReachableDL s) :
    (∀ oa b, s = .opening oa b → b = false)
    ∧ (∀ oa b now, s = .opening oa b →
        pre_send now s
          = if 5 < now - oa then (.closed, .missedInit)
            else (.ready oa now false, .ready)) := by
  refine ⟨reachable_opening_not_started s h, ?_⟩
  intro oa b now hs
  have hb : b = false := reachable_opening_not_started s h oa b hs
  subst hs
  subst hb
  by_cases h5 : 5 < now - oa
  · simp [pre_send, h5]
  · have h30 : ¬ (now - oa > 30) := by omega
    simp [pre_send, h5, h30]

/-- Witness for C10: opening at t = 0 and first attempting `pre_send` at
t = 7 misses the 5 ms init window. -/
theorem c10_opening_never_initialized_witness :
    pre_send 7 (LinkState.opening 0 false) = (.closed, .missedInit) := by
  rw [(c10_opening_never_initialized (LinkState.opening 0 false)
      (ReachableDL.openStep 0 LinkState.closed ReachableDL.start)).2 0 false 7 rfl]
  decide

/-! ## Thermal sensor consecutive-miss alarm (satellite_ocs/src/sensors/thermal.rs) -/

/-- Emergency alert record (`struct EmergencyData`), timestamps in ms. -/
structure EmergencyData where
  alert_id : String
  severity : Severity
  alert_type : String
  description : String
  affected_systems : List String
  recommended_actions : List String
  auto_recovery_attempted : Bool
  timestamp : Nat
deriving DecidableEq

/-- The alert built at thermal.rs lines 124-138 when the miss counter
trips. -/
def thermalMissAlert (nowMs : Nat) : EmergencyData :=
  { alert_id := "thermal-miss-" ++ toString nowMs
    severity := .high
    alert_type := "thermal"
    description := "Thermal sensor missed >3 consecutive cycles (either jitter>1ms or queueing failure)"
    affected_systems := ["thermal_management"]
    recommended_actions := ["increase_cooling", "enter_safe_mode_if_persistent"]
    auto_recovery_attempted := false
    timestamp := nowMs }

/-- The per-cycle miss-tracking block of the thermal loop (thermal.rs lines
111-141): `consecutive_misses` is incremented when the send failed or the
signed deviation `actual_ms - ideal_ms` exceeds 1 ms, reset to 0 otherwise;
past 3 it resets and emits one alert on the emergency fast path. -/
def thermalMissStep (sendOk : Bool) (actual_ms ideal_ms : ℚ) (misses : Nat)
    (nowMs : Nat) : Nat × Option EmergencyData :=
  let m := if sendOk = false ∨ actual_ms - ideal_ms > 1 then misses + 1 else 0
  if m > 3 then (0, some (thermalMissAlert nowMs)) else (m, none)

/-- Fold `thermalMissStep` over a list of cycles `(sendOk, actual, ideal)`
starting from a zero counter, collecting the emitted alerts. -/
def runMissCycles (cycles : List (Bool × ℚ × ℚ)) : Nat × List EmergencyData :=
  cycles.foldl
    (fun acc c =>
      let r := thermalMissStep c.1 c.2.1 c.2.2 acc.1 0
      (r.1, acc.2 ++ r.2.toList))
    (0, [])

/-- C8 counterexample: a tick 2 ms early (`|actual - ideal| = 2 > 1`) with a
successful send and 3 accumulated misses.  The claim predicts a fourth miss
and an alert; the code tests the signed deviation `actual - ideal > 1`, so
the counter resets to zero and nothing is emitted. -/
theorem c8_counterexample :
    (1 : ℚ) < |(48 : ℚ) - 50| ∧ thermalMissStep true 48 50 3 0 = (0, none) := by
  constructor
  · rw [show (48 : ℚ) - 50 = -2 by norm_num, abs_neg, abs_of_pos (by norm_num : (0 : ℚ) < 2)]
    norm_num
  · have hc : ¬ ((true = false) ∨ (48 : ℚ) - 50 > 1) := by
      push_neg
      exact ⟨by decide, by norm_num⟩
    simp only [thermalMissStep, if_neg hc]
    rfl

/-- C8 (amended): a cycle counts as a miss exactly when the send failed or
the signed deviation `actual - ideal` exceeds 1 ms (a tick arriving early
does not count); after more than 3 consecutive misses one `EmergencyData`
with severity `High` and alert_type `"thermal"` is emitted and the counter
resets to zero; four consecutive late cycles from a zero counter emit
exactly one alert. -/
theorem c8_miss_counter (sendOk : Bool) (a i : ℚ) (m nowMs : Nat) :
    thermalMissStep sendOk a i m nowMs
      = (if sendOk = false ∨ 1 < a - i then
          (if m + 1 > 3 then (0, some (thermalMissAlert nowMs)) else (m + 1, none))
         else (0, none))
    ∧ (thermalMissAlert nowMs).severity = .high
    ∧ (thermalMissAlert nowMs).alert_type = "thermal"
    ∧ runMissCycles (List.replicate 4 (true, 52, 50)) = (0, [thermalMissAlert 0]) := by
  refine ⟨?_, rfl, rfl, ?_⟩
  · by_cases hc : sendOk = false ∨ 1 < a - i
    · simp only [thermalMissStep, if_pos hc]
    · simp only [thermalMissStep, if_neg hc]
      rfl
  · have h21 : (52 : ℚ) - 50 > 1 := by norm_num
    simp [runMissCycles, thermalMissStep, List.replicate, h21]

/-! ## Fault injector recovery protocol (satellite_ocs/src/faults/mod.rs) -/

/-- Recovery acknowledgement sent by a sensor (`struct FaultAck`). -/
structure FaultAck where
  fault_id : String
  component : String
  recovered_ts_ms : Int
deriving DecidableEq

/-- One row written by `log_fault_recovery`. -/
structure RecoveryLog where
  fault_id : String
  component : String
  recovery_ms : ℚ
  aborted : Bool
deriving DecidableEq

/-- Reason of a published `Abort` event: the formatted late-recovery message
(carrying the measured time) or the literal `"recovery timeout"`. -/
inductive AbortReason where
  | late (recovery_ms : ℚ)
  | timeoutExpired
deriving DecidableEq

/-- Outcome of the post-`Recover` wait: the logged row and the `Abort`
published, if any. -/
structure RecoveryResult where
  log : RecoveryLog
  abort : Option AbortReason
deriving DecidableEq

/-- The ack-await loop of `init_and_spawn` (faults/mod.rs lines 102-157)
over the chronological list of acks `(arrival ms after Recover, ack)`.  An
ack arriving at or after the 500 ms deadline is never received — the
per-await timeout fires and the `while` guard ends the wait; unrelated acks
are discarded and the wait continues against the remaining deadline. -/
def recoveryWait (fault_id : String) : List (ℚ × FaultAck) → RecoveryResult
  | [] => ⟨⟨fault_id, "unknown", 1000, true⟩, some .timeoutExpired⟩
  | (t, ack) :: rest =>
    if t < 500 then
      if ack.fault_id = fault_id then
        if t > 200 then ⟨⟨fault_id, ack.component, t, true⟩, some (.late t)⟩
        else ⟨⟨fault_id, ack.component, t, false⟩, none⟩
      else recoveryWait fault_id rest
    else ⟨⟨fault_id, "unknown", 1000, true⟩, some .timeoutExpired⟩

/-- C9: after `Recover{fault_id}` is published, a matching ack arriving at
`t < 500` ms (any earlier unrelated acks being discarded) logs the elapsed
time with `aborted = (t > 200)`, publishing an `Abort` exactly when
`t > 200`; and when no matching ack arrives within 500 ms the injector logs
`component = "unknown", recovery_ms = 1000, aborted = true` and publishes
`Abort` with reason "recovery timeout". -/
theorem c9_recovery_protocol (fault_id : String) :
    (∀ (pre rest : List (ℚ × FaultAck)) (t : ℚ) (ack : FaultAck),
        (∀ p ∈ pre, p.1 < 500 ∧ p.2.fault_id ≠ fault_id) →
        ack.fault_id = fault_id → t < 500 →
        recoveryWait fault_id (pre ++ (t, ack) :: rest)
          = if t > 200 then ⟨⟨fault_id, ack.component, t, true⟩, some (.late t)⟩
            else ⟨⟨fault_id, ack.component, t, false⟩, none⟩)
    ∧ (∀ acks : List (ℚ × FaultAck),
        (∀ p ∈ acks, p.1 < 500 → p.2.fault_id ≠ fault_id) →
        recoveryWait fault_id acks
          = ⟨⟨fault_id, "unknown", 1000, true⟩, some .timeoutExpired⟩) := by
  constructor
  · intro pre
    induction pre with
    | nil =>
      intro rest t ack _ hmatch ht
      simp [recoveryWait, ht, hmatch]
    | cons p ps ih =>
      intro rest t ack hpre hmatch ht
      have hp := hpre p (List.mem_cons_self _ _)
      rcases p with ⟨tp, ackp⟩
      simp only [List.cons_append, recoveryWait]
      rw [if_pos hp.1, if_neg hp.2]
      exact ih rest t ack (fun q hq => hpre q (List.mem_cons_of_mem _ hq)) hmatch ht
  · intro acks hall
    induction acks with
    | nil => rfl
    | cons p ps ih =>
      rcases p with ⟨tp, ackp⟩
      by_cases htp : tp < 500
      · have hne := hall (tp, ackp) (List.mem_cons_self _ _) htp
        simp only [recoveryWait]
        rw [if_pos htp, if_neg hne]
        exact ih fun q hq hq5 => hall q (List.mem_cons_of_mem _ hq) hq5
      · simp only [recoveryWait]
        rw [if_neg htp]

/-- Witness for C9: an unrelated ack at 10 ms is skipped; the matching ack
at 250 ms is late, so the row is logged aborted and an Abort is
published. -/
theorem c9_recovery_protocol_witness :
    recoveryWait "f1" [(10, ⟨"other", "power", 0⟩), (250, ⟨"f1", "thermal", 0⟩)]
      = ⟨⟨"f1", "thermal", 250, true⟩, some (.late 250)⟩ := by
  have h := (c9_recovery_protocol "f1").1 [(10, ⟨"other", "power", 0⟩)] []
    250 ⟨"f1", "thermal", 0⟩
    (by
      intro p hp
      simp only [List.mem_singleton] at hp
      rw [hp]
      exact ⟨by norm_num, by decide⟩)
    rfl (by norm_num)
  have h2 : (250 : ℚ) > 200 := by norm_num
  rw [if_pos h2] at h
  simpa using h

/-! ## RM scheduler ready-queue ordering (satellite_ocs/src/scheduler/rm.rs) -/

/-- An RM task (`struct RtTask`); durations and instants in ms. -/
structure RtTask where
  name : String
  period : Nat
  deadline : Nat
  wcet_ms : ℚ
  rm_priority : Nat
  next_release : Nat
  next_deadline : Nat
  seq : Nat
deriving DecidableEq

/-- `RtTask::new`: deadline = period, first release one period after
`now`. -/
def RtTask.new (name : String) (period_ms : Nat) (wcet_ms : ℚ) (prio : Nat)
    (now : Nat) : RtTask :=
  { name := name, period := period_ms, deadline := period_ms, wcet_ms := wcet_ms,
    rm_priority := prio, next_release := now + period_ms,
    next_deadline := now + period_ms, seq := 0 }

/-- The initial task set of `spawn_rm`. -/
def initialTasks (now : Nat) : List RtTask :=
  [RtTask.new "antenna_alignment" 50 3 1 now,
   RtTask.new "data_compression" 100 6 2 now,
   RtTask.new "health_monitor" 1000 2 3 now]

/-- A released job instance (`struct Job`). -/
structure Job where
  task_idx : Nat
  release : Nat
  deadline : Nat
  seq : Nat
  remaining_ms : ℚ
  preemptions : Nat
deriving DecidableEq

/-- The synthetic task index `usize::MAX` marking the sporadic
thermal-control job. -/
def sentinelIdx : Nat := 2 ^ 64 - 1

/-- The job injected by `spawn_thermal_job` (rm.rs lines 108-127). -/
def thermalJob (now : Nat) : Job :=
  { task_idx := sentinelIdx, release := now, deadline := now + 20, seq := 0,
    remaining_ms := 2, preemptions := 0 }

/-- The sort comparator of `release_due` (rm.rs lines 97-104): it reads
`tasks[job.task_idx].rm_priority` unconditionally, so on the sentinel index
the lookup is out of bounds (a Rust panic), modelled as `none`. -/
def releaseCmp (tasks : List RtTask) (a b : Job) : Option Ordering :=
  match tasks.get? a.task_idx, tasks.get? b.task_idx with
  | some ta, some tb =>
    some (match compare ta.rm_priority tb.rm_priority with
          | .eq => compare a.deadline b.deadline
          | o => o)
  | _, _ => none

/-- The re-sort comparator used on preemption (rm.rs lines 215-227):
sentinel first, then rm_priority (0 for the sentinel), then deadline;
non-sentinel indices are still table lookups. -/
def preemptCmp (tasks : List RtTask) (a b : Job) : Option Ordering :=
  if a.task_idx = sentinelIdx ∧ b.task_idx ≠ sentinelIdx then some .lt
  else if b.task_idx = sentinelIdx ∧ a.task_idx ≠ sentinelIdx then some .gt
  else
    match (if a.task_idx = sentinelIdx then some 0
           else (tasks.get? a.task_idx).map RtTask.rm_priority),
          (if b.task_idx = sentinelIdx then some 0
           else (tasks.get? b.task_idx).map RtTask.rm_priority) with
    | some pa, some pb =>
      some (match compare pa pb with
            | .eq => compare a.deadline b.deadline
            | o => o)
    | _, _ => none

/-- Insertion into a sorted list under a partial comparator; a failing
comparison aborts (models a panicking comparator inside `sort_by`). -/
def insertM (cmp : Job → Job → Option Ordering) (x : Job) : List Job → Option (List Job)
  | [] => some [x]
  | y :: ys =>
    match cmp x y with
    | none => none
    | some .lt => some (x :: y :: ys)
    | some _ =>
      match insertM cmp x ys with
      | none => none
      | some zs => some (y :: zs)

/-- Sorting under a partial comparator (models `Vec::sort_by` whose
comparator can panic). -/
def sortM (cmp : Job → Job → Option Ordering) : List Job → Option (List Job)
  | [] => some []
  | x :: xs =>
    match sortM cmp xs with
    | none => none
    | some s => insertM cmp x s

/-- Three-component lexicographic comparison on `Nat` triples. -/
def cmp3 (a b : Nat × Nat × Nat) : Ordering :=
  match compare a.1 b.1 with
  | .eq =>
    match compare a.2.1 b.2.1 with
    | .eq => compare a.2.2 b.2.2
    | o => o
  | o => o

/-- Lexicographic order on `Nat` triples (the reflexive closure). -/
def le3 (a b : Nat × Nat × Nat) : Prop :=
  a.1 < b.1 ∨ (a.1 = b.1 ∧ (a.2.1 < b.2.1 ∨ (a.2.1 = b.2.1 ∧ a.2.2 ≤ b.2.2)))

theorem le3_of_cmp3_lt {a b : Nat × Nat × Nat} (h : cmp3 a b = .lt) : le3 a b := by
  unfold cmp3 at h
  unfold le3
  rcases h1 : compare a.1 b.1 with _ | _ | _ <;> simp only [h1] at h
  · exact Or.inl (Nat.compare_eq_lt.mp h1)
  · rcases h2 : compare a.2.1 b.2.1 with _ | _ | _ <;> simp only [h2] at h
    · exact Or.inr ⟨Nat.compare_eq_eq.mp h1, Or.inl (Nat.compare_eq_lt.mp h2)⟩
    · exact Or.inr ⟨Nat.compare_eq_eq.mp h1,
        Or.inr ⟨Nat.compare_eq_eq.mp h2, Nat.le_of_lt (Nat.compare_eq_lt.mp h)⟩⟩
    · exact absurd h (by decide)
  · exact absurd h (by decide)

theorem le3_of_cmp3_ne_lt {a b : Nat × Nat × Nat} (h : cmp3 a b ≠ .lt) : le3 b a := by
  unfold cmp3 at h
  unfold le3
  rcases h1 : compare a.1 b.1 with _ | _ | _ <;> simp only [h1] at h
  · exact absurd rfl h
  · rcases h2 : compare a.2.1 b.2.1 with _ | _ | _ <;> simp only [h2] at h
    · exact absurd rfl h
    · have k1 := Nat.compare_eq_eq.mp h1
      have k2 := Nat.compare_eq_eq.mp h2
      have k3 : ¬ a.2.2 < b.2.2 := fun hlt => h (Nat.compare_eq_lt.mpr hlt)
      exact Or.inr ⟨k1.symm, Or.inr ⟨k2.symm, by omega⟩⟩
    · exact Or.inr ⟨(Nat.compare_eq_eq.mp h1).symm, Or.inl (Nat.compare_eq_gt.mp h2)⟩
  · exact Or.inl (Nat.compare_eq_gt.mp h1)

theorem le3_trans {a b c : Nat × Nat × Nat} (h1 : le3 a b) (h2 : le3 b c) : le3 a c := by
  unfold le3 at *
  omega

/-- Total insertion sort keyed into `Nat` triples; reference order for the
partial sorts. -/
def insertTotal (key : Job → Nat × Nat × Nat) (x : Job) : List Job → List Job
  | [] => [x]
  | y :: ys =>
    if cmp3 (key x) (key y) = .lt then x :: y :: ys else y :: insertTotal key x ys

def sortTotal (key : Job → Nat × Nat × Nat) : List Job → List Job
  | [] => []
  | x :: xs => insertTotal key x (sortTotal key xs)

theorem mem_insertTotal {key : Job → Nat × Nat × Nat} {x : Job} {l : List Job} {z : Job}
    (h : z ∈ insertTotal key x l) : z = x ∨ z ∈ l := by
  induction l with
  | nil => simpa [insertTotal] using h
  | cons y ys ih =>
    unfold insertTotal at h
    by_cases hc : cmp3 (key x) (key y) = .lt
    · rw [if_pos hc] at h
      rcases List.mem_cons.mp h with h' | h'
      · exact Or.inl h'
      · exact Or.inr h'
    · rw [if_neg hc] at h
      rcases List.mem_cons.mp h with h' | h'
      · exact Or.inr (by rw [h']; exact List.mem_cons_self _ _)
      · rcases ih h' with h2 | h2
        · exact Or.inl h2
        · exact Or.inr (List.mem_cons_of_mem _ h2)

theorem mem_sortTotal {key : Job → Nat × Nat × Nat} {l : List Job} {z : Job}
    (h : z ∈ sortTotal key l) : z ∈ l := by
  induction l with
  | nil => simp [sortTotal] at h
  | cons x xs ih =>
    unfold sortTotal at h
    rcases mem_insertTotal h with h' | h'
    · rw [h']; exact List.mem_cons_self _ _
    · exact List.mem_cons_of_mem _ (ih h')

theorem pairwise_insertTotal {key : Job → Nat × Nat × Nat} {x : Job} {l : List Job}
    (h : l.Pairwise (fun a b => le3 (key a) (key b))) :
    (insertTotal key x l).Pairwise (fun a b => le3 (key a) (key b)) := by
  induction l with
  | nil => simp [insertTotal]
  | cons y ys ih =>
    rcases List.pairwise_cons.mp h with ⟨hy, hys⟩
    unfold insertTotal
    by_cases hc : cmp3 (key x) (key y) = .lt
    · rw [if_pos hc]
      refine List.pairwise_cons.mpr ⟨?_, h⟩
      intro z hz
      rcases List.mem_cons.mp hz with h' | h'
      · rw [h']; exact le3_of_cmp3_lt hc
      · exact le3_trans (le3_of_cmp3_lt hc) (hy z h')
    · rw [if_neg hc]
      refine List.pairwise_cons.mpr ⟨?_, ih hys⟩
      intro z hz
      rcases mem_insertTotal hz with h' | h'
      · rw [h']; exact le3_of_cmp3_ne_lt hc
      · exact hy z h'

theorem pairwise_sortTotal (key : Job → Nat × Nat × Nat) (l : List Job) :
    (sortTotal key l).Pairwise (fun a b => le3 (key a) (key b)) := by
  induction l with
  | nil => simp [sortTotal]
  | cons x xs ih => exact pairwise_insertTotal ih

theorem insertM_eq_total (cmp : Job → Job → Option Ordering)
    (key : Job → Nat × Nat × Nat) (x : Job) (l : List Job)
    (h : ∀ y ∈ l, cmp x y = some (cmp3 (key x) (key y))) :
    insertM cmp x l = some (insertTotal key x l) := by
  induction l with
  | nil => rfl
  | cons y ys ih =>
    have hy := h y (List.mem_cons_self _ _)
    have ih' := ih fun z hz => h z (List.mem_cons_of_mem _ hz)
    rcases ho : cmp3 (key x) (key y) with _ | _ | _
    · simp [insertM, insertTotal, hy, ho]
    · simp [insertM, insertTotal, hy, ho, ih']
    · simp [insertM, insertTotal, hy, ho, ih']

theorem sortM_eq_total (cmp : Job → Job → Option Ordering)
    (key : Job → Nat × Nat × Nat) (l : List Job)
    (h : ∀ a ∈ l, ∀ b ∈ l, cmp a b = some (cmp3 (key a) (key b))) :
    sortM cmp l = some (sortTotal key l) := by
  induction l with
  | nil => rfl
  | cons x xs ih =>
    have ih' := ih fun a ha b hb =>
      h a (List.mem_cons_of_mem _ ha) b (List.mem_cons_of_mem _ hb)
    have hx : ∀ y ∈ sortTotal key xs, cmp x y = some (cmp3 (key x) (key y)) :=
      fun y hy => h x (List.mem_cons_self _ _) y (List.mem_cons_of_mem _ (mem_sortTotal hy))
    simp [sortM, sortTotal, ih', insertM_eq_total cmp key x _ hx]

/-- Sort key of the release-path comparator: (rm_priority, deadline). -/
def releaseKey (tasks : List RtTask) (j : Job) : Nat × Nat × Nat :=
  (((tasks.get? j.task_idx).map RtTask.rm_priority).getD 0, j.deadline, 0)

/-- Sort key of the preemption re-sort: sentinel flag, sentinel-aware
priority, deadline. -/
def preemptKey (tasks : List RtTask) (j : Job) : Nat × Nat × Nat :=
  (if j.task_idx = sentinelIdx then 0 else 1,
   if j.task_idx = sentinelIdx then 0
   else ((tasks.get? j.task_idx).map RtTask.rm_priority).getD 0,
   j.deadline)

theorem releaseCmp_eq_key (tasks : List RtTask) (a b : Job)
    (ha : a.task_idx < tasks.length) (hb : b.task_idx < tasks.length) :
    releaseCmp tasks a b = some (cmp3 (releaseKey tasks a) (releaseKey tasks b)) := by
  have hta : tasks[a.task_idx]? = some tasks[a.task_idx] := List.getElem?_eq_getElem ha
  have htb : tasks[b.task_idx]? = some tasks[b.task_idx] := List.getElem?_eq_getElem hb
  have c00 : compare (0 : Nat) 0 = Ordering.eq := by decide
  rcases hp : compare tasks[a.task_idx].rm_priority tasks[b.task_idx].rm_priority
      with _ | _ | _ <;>
    rcases hd : compare a.deadline b.deadline with _ | _ | _ <;>
      simp [releaseCmp, releaseKey, cmp3, hta, htb, hp, hd, c00]

theorem preemptCmp_eq_key (tasks : List RtTask) (a b : Job)
    (ha : a.task_idx = sentinelIdx ∨ a.task_idx < tasks.length)
    (hb : b.task_idx = sentinelIdx ∨ b.task_idx < tasks.length) :
    preemptCmp tasks a b = some (cmp3 (preemptKey tasks a) (preemptKey tasks b)) := by
  have c00 : compare (0 : Nat) 0 = Ordering.eq := by decide
  have c01 : compare (0 : Nat) 1 = Ordering.lt := by decide
  have c10 : compare (1 : Nat) 0 = Ordering.gt := by decide
  have c11 : compare (1 : Nat) 1 = Ordering.eq := by decide
  by_cases hsa : a.task_idx = sentinelIdx <;> by_cases hsb : b.task_idx = sentinelIdx
  · simp [preemptCmp, preemptKey, cmp3, hsa, hsb, c00]
  · simp [preemptCmp, preemptKey, cmp3, hsa, hsb, c01]
  · simp [preemptCmp, preemptKey, cmp3, hsa, hsb, c10]
  · have ha' : a.task_idx < tasks.length := ha.resolve_left hsa
    have hb' : b.task_idx < tasks.length := hb.resolve_left hsb
    have hta : tasks[a.task_idx]? = some tasks[a.task_idx] := List.getElem?_eq_getElem ha'
    have htb : tasks[b.task_idx]? = some tasks[b.task_idx] := List.getElem?_eq_getElem hb'
    simp [preemptCmp, preemptKey, cmp3, hsa, hsb, hta, htb, c11]

/-- One pass of the release loop of `release_due` (rm.rs lines 79-95) over
the task table, `idx` being the index of the head of `ts`: release every due
task (advancing `next_release`/`next_deadline` and wrapping `seq` as a u64)
and collect the new jobs in table order. -/
def releaseScan (now : Nat) : List RtTask → Nat → List RtTask × List Job
  | [], _ => ([], [])
  | t :: ts, idx =>
    let rest := releaseScan now ts (idx + 1)
    if now ≥ t.next_release then
      ({ t with
          next_release := t.next_release + t.period
          next_deadline := t.next_deadline + t.deadline
          seq := (t.seq + 1) % 2 ^ 64 } :: rest.1,
        { task_idx := idx, release := t.next_release, deadline := t.next_deadline,
          seq := (t.seq + 1) % 2 ^ 64, remaining_ms := t.wcet_ms,
          preemptions := 0 } :: rest.2)
    else (t :: rest.1, rest.2)

/-- `release_due` (rm.rs lines 78-105): release all due tasks into the ready
queue, then sort with the release comparator.  `none` models the Rust
index-out-of-bounds panic of the comparator on a sentinel job. -/
def release_due (tasks : List RtTask) (ready : List Job) (now : Nat) :
    Option (List RtTask × List Job) :=
  match sortM (releaseCmp (releaseScan now tasks 0).1)
      (ready ++ (releaseScan now tasks 0).2) with
  | some q => some ((releaseScan now tasks 0).1, q)
  | none => none

theorem releaseScan_length (now : Nat) (ts : List RtTask) (idx : Nat) :
    (releaseScan now ts idx).1.length = ts.length := by
  induction ts generalizing idx with
  | nil => rfl
  | cons t ts ih =>
    unfold releaseScan
    by_cases h : now ≥ t.next_release <;> simp [h, ih]

theorem releaseScan_jobs_idx (now : Nat) (ts : List RtTask) (idx : Nat) :
    ∀ j ∈ (releaseScan now ts idx).2, idx ≤ j.task_idx ∧ j.task_idx < idx + ts.length := by
  induction ts generalizing idx with
  | nil => intro j hj; simp [releaseScan] at hj
  | cons t ts ih =>
    intro j hj
    unfold releaseScan at hj
    by_cases h : now ≥ t.next_release
    · rw [if_pos h] at hj
      rcases List.mem_cons.mp hj with h' | h'
      · rw [h']
        show idx ≤ idx ∧ idx < idx + (t :: ts).length
        simp only [List.length_cons]
        omega
      · have h2 := ih (idx + 1) j h'
        simp only [List.length_cons]
        omega
    · rw [if_neg h] at hj
      have h2 := ih (idx + 1) j hj
      simp only [List.length_cons]
      omega

/-- The first release of `antenna_alignment` from the initial table. -/
def periodicJob0 : Job :=
  { task_idx := 0, release := 50, deadline := 50, seq := 1, remaining_ms := 3,
    preemptions := 0 }

/-- C3 counterexample: when the ready queue holds the sporadic thermal
sentinel job next to a periodic job, the release-path comparator indexes the
task table at `usize::MAX` (a Rust panic, modelled as `none`): the release
step produces no sorted queue at all, in particular not one with the
sentinel first. -/
theorem c3_counterexample :
    release_due (initialTasks 0) [thermalJob 0, periodicJob0] 0 = none := by
  have hg : (initialTasks 0).get? sentinelIdx = none := by
    apply List.get?_eq_none.mpr
    show (initialTasks 0).length ≤ sentinelIdx
    norm_num [initialTasks, sentinelIdx]
  have hcmp : releaseCmp (initialTasks 0) (thermalJob 0) periodicJob0 = none := by
    unfold releaseCmp
    rw [show (thermalJob 0).task_idx = sentinelIdx from rfl, hg]
  have h1 : (releaseScan 0 (initialTasks 0) 0).1 = initialTasks 0 := rfl
  have h2 : (releaseScan 0 (initialTasks 0) 0).2 = [] := rfl
  have hs : sortM (releaseCmp (initialTasks 0)) [thermalJob 0, periodicJob0] = none := by
    simp [sortM, insertM, hcmp]
  unfold release_due
  rw [h1, h2, List.append_nil, hs]

/-- C3 (amended): after a release step on a queue of periodic jobs (every
task index inside the table) the sort succeeds and the resulting ready queue
is ordered by ascending (rm_priority, deadline); after every preemption
re-sort of a queue of valid jobs the queue is ordered sentinel-first, then
by ascending (rm_priority, deadline), ranking the sentinel as priority 0.
The release-path comparator does not handle the sentinel (see the
counterexample). -/
theorem c3_ready_queue_order (tasks : List RtTask) (ready : List Job) (now : Nat) :
    ((∀ j ∈ ready, j.task_idx < tasks.length) →
      ∃ tq, release_due tasks ready now = some tq
        ∧ tq.2.Pairwise (fun a b => le3 (releaseKey tq.1 a) (releaseKey tq.1 b)))
    ∧ ((∀ j ∈ ready, j.task_idx = sentinelIdx ∨ j.task_idx < tasks.length) →
      ∃ q, sortM (preemptCmp tasks) ready = some q
        ∧ q.Pairwise (fun a b => le3 (preemptKey tasks a) (preemptKey tasks b))) := by
  constructor
  · intro hready
    have hvalid : ∀ j ∈ ready ++ (releaseScan now tasks 0).2,
        j.task_idx < (releaseScan now tasks 0).1.length := by
      intro j hj
      rw [releaseScan_length]
      rcases List.mem_append.mp hj with h | h
      · exact hready j h
      · have h2 := releaseScan_jobs_idx now tasks 0 j h
        omega
    have hcmp : ∀ a ∈ ready ++ (releaseScan now tasks 0).2,
        ∀ b ∈ ready ++ (releaseScan now tasks 0).2,
        releaseCmp (releaseScan now tasks 0).1 a b
          = some (cmp3 (releaseKey (releaseScan now tasks 0).1 a)
                       (releaseKey (releaseScan now tasks 0).1 b)) :=
      fun a ha b hb => releaseCmp_eq_key _ a b (hvalid a ha) (hvalid b hb)
    refine ⟨((releaseScan now tasks 0).1,
      sortTotal (releaseKey (releaseScan now tasks 0).1)
        (ready ++ (releaseScan now tasks 0).2)), ?_, ?_⟩
    · unfold release_due
      rw [sortM_eq_total _ _ _ hcmp]
    · exact pairwise_sortTotal _ _
  · intro hready
    have hcmp : ∀ a ∈ ready, ∀ b ∈ ready,
        preemptCmp tasks a b
          = some (cmp3 (preemptKey tasks a) (preemptKey tasks b)) :=
      fun a ha b hb => preemptCmp_eq_key tasks a b (hready a ha) (hready b hb)
    exact ⟨sortTotal (preemptKey tasks) ready, sortM_eq_total _ _ _ hcmp,
      pairwise_sortTotal _ _⟩

/-- Witness for C3: a release step over one periodic job, and a preemption
re-sort over a thermal job next to a periodic job. -/
theorem c3_ready_queue_order_witness :
    (∃ tq, release_due (initialTasks 0) [periodicJob0] 0 = some tq
      ∧ tq.2.Pairwise (fun a b => le3 (releaseKey tq.1 a) (releaseKey tq.1 b)))
    ∧ (∃ q, sortM (preemptCmp (initialTasks 0)) [thermalJob 0, periodicJob0] = some q
      ∧ q.Pairwise (fun a b =>
          le3 (preemptKey (initialTasks 0) a) (preemptKey (initialTasks 0) b))) := by
  constructor
  · refine (c3_ready_queue_order (initialTasks 0) [periodicJob0] 0).1 ?_
    intro j hj
    rw [List.mem_singleton] at hj
    subst hj
    decide
  · refine (c3_ready_queue_order (initialTasks 0) [thermalJob 0, periodicJob0] 0).2 ?_
    intro j hj
    rcases List.mem_cons.mp hj with h | h
    · subst h
      exact Or.inl rfl
    · rw [List.mem_singleton] at h
      subst h
      exact Or.inr (by decide)

/-! ### Claim C4: the preemption decision -/

/-- The RM preemption decision of `spawn_rm` (rm.rs lines 200-210): is the
ready-queue head `next` of strictly higher priority than the running job
`cur`?  `none` models the panic on an out-of-table non-sentinel index. -/
def higher_prio (tasks : List RtTask) (cur next : Job) : Option Bool :=
  if next.task_idx = sentinelIdx then some true
  else if cur.task_idx = sentinelIdx then some false
  else
    match tasks.get? cur.task_idx, tasks.get? next.task_idx with
    | some tc, some tn => some (decide (tn.rm_priority < tc.rm_priority))
    | _, _ => none

/-- C4 counterexample: with a thermal job running and another thermal job at
the head of the ready queue, the decision is `true` — the running thermal
job IS preempted, because the `next is sentinel` test precedes the `current
is sentinel` test. -/
theorem c4_counterexample :
    higher_prio (initialTasks 0) (thermalJob 0) (thermalJob 5) = some true := rfl

/-- C4 (amended): a ready thermal job always preempts the running job —
including a running thermal job; a running thermal job is never preempted by
a periodic job; and between two periodic jobs preemption happens exactly on
strictly smaller rm_priority. -/
theorem c4_preemption_decision (tasks : List RtTask) (cur next : Job) :
    (next.task_idx = sentinelIdx → higher_prio tasks cur next = some true)
    ∧ (cur.task_idx = sentinelIdx → next.task_idx ≠ sentinelIdx →
        higher_prio tasks cur next = some false)
    ∧ (∀ tc tn, cur.task_idx ≠ sentinelIdx → next.task_idx ≠ sentinelIdx →
        tasks.get? cur.task_idx = some tc → tasks.get? next.task_idx = some tn →
        higher_prio tasks cur next = some (decide (tn.rm_priority < tc.rm_priority))) := by
  refine ⟨?_, ?_, ?_⟩
  · intro h
    simp [higher_prio, h]
  · intro hc hn
    simp [higher_prio, hc, hn]
  · intro tc tn hc hn htc htn
    rw [List.get?_eq_getElem?] at htc htn
    simp [higher_prio, hc, hn, htc, htn]

/-- Witness for C4: a ready thermal job preempts a running periodic job. -/
theorem c4_preemption_decision_witness :
    higher_prio (initialTasks 0) periodicJob0 (thermalJob 0) = some true :=
  (c4_preemption_decision (initialTasks 0) periodicJob0 (thermalJob 0)).1 rfl

/-! ## Logical packets and the AEAD envelope (shared_protocol/src/lib.rs)

`serde_json` and the `chacha20poly1305` crate are external dependencies of
the repository; following §4.6 of the specification they are modelled by a
deterministic injective serializer over token lists and a stream cipher with
an appended 16-byte authentication tag.  The envelope logic itself
(`seal_to_bytes` / `open_from_bytes`) is translated from the source. -/

/-- Packet endpoint (`enum Source`). -/
inductive Source where
  | satellite
  | groundControl
deriving DecidableEq

/-- Packet kind (`enum PacketType`). -/
inductive PacketType where
  | telemetry
  | command
  | ack
  | emergency
  | heartbeat
deriving DecidableEq

/-- Command kind (`enum CommandType`). -/
inductive CommandType where
  | thermalControl
  | powerControl
  | attitudeControl
  | emergency
  | recovery
  | diagnostic
  | maintenance
  | dataRequest
deriving DecidableEq

/-- Command target (`enum TargetSystem`). -/
inductive TargetSystem where
  | allSystems
  | thermalManagement
  | powerManagement
  | attitudeControl
deriving DecidableEq

/-- Logical packet header (`struct PacketHeader`). -/
structure PacketHeader where
  packet_id : String
  source : Source
  destination : Source
  packet_type : PacketType
  sequence_number : Nat
  timestamp : Nat
  payload_size_bytes : Nat
  protocol_version : Nat
deriving DecidableEq

/-- A ground command (`struct Command`). -/
structure Command where
  command_id : String
  command_type : CommandType
  description : String
  target_system : TargetSystem
  timestamp : Nat
  deadline : Option Nat
  retry_count : Nat
  param1 : ℚ
  param2 : ℚ
  param3 : ℚ
  param4 : ℚ
  text_param : String
  priority : Priority
  source : Source
  destination : Source
  metadata : List (String × String)
deriving DecidableEq

/-- Command acknowledgement (`struct CommandAcknowledgment`). -/
structure CommandAcknowledgment where
  command_id : String
  status : String
  execution_timestamp : Option Nat
  completion_timestamp : Option Nat
  error_message : Option String
  execution_time_ms : ℚ
deriving DecidableEq

/-- Heartbeat payload (`struct SystemHealth`). -/
structure SystemHealth where
  overall_status : String
  cpu_usage_percent : ℚ
  memory_usage_percent : ℚ
  disk_usage_percent : ℚ
  uptime_seconds : Nat
  active_tasks : Nat
  failed_tasks : Nat
  timestamp : Nat
deriving DecidableEq

/-- Tagged packet payload (`enum PacketPayload`). -/
inductive PacketPayload where
  | telemetryData (readings : List SensorReading)
  | commandData (c : Command)
  | acknowledgmentData (a : CommandAcknowledgment)
  | emergencyAlert (e : EmergencyData)
  | heartbeatData (h : SystemHealth)
deriving DecidableEq

/-- The logical packet (`struct CommunicationPacket`); the checksum is
carried but unused under AEAD. -/
structure CommunicationPacket where
  header : PacketHeader
  payload : PacketPayload
  checksum : Nat
deriving DecidableEq

/-- Clear header, authenticated but not encrypted (`struct ClearHeader`);
the 12-byte nonce is carried as its integer value. -/
structure ClearHeader where
  protocol_version : Nat
  packet_type : PacketType
  sequence_number : Nat
  source : Source
  destination : Source
  key_id : Nat
  nonce : Nat
deriving DecidableEq

/-- On-wire encrypted frame (`struct EncryptedFrame`); the ciphertext
includes the appended tag bytes. -/
structure EncryptedFrame where
  header : ClearHeader
  ciphertext : List Nat
deriving DecidableEq

/-- Key material (`struct CryptoContext`); the 32-byte key is carried as its
integer value. -/
structure CryptoContext where
  key_id : Nat
  key : Nat
deriving DecidableEq

def PROTOCOL_VERSION : Nat := 1

def MAX_PACKET_SIZE : Nat := 1024 * 1024

/-- Modelled from the spec: a serde codec.  `enc` serializes to a token
list; `dec` parses a prefix, returning the value and the remaining tokens,
with the round-trip law carried inside. -/
structure Codec (α : Type) where
  enc : α → List Nat
  dec : List Nat → Option (α × List Nat)
  spec : ∀ (a : α) (rest : List Nat), dec (enc a ++ rest) = some (a, rest)

/-- Transport a codec along an injection with explicit retraction. -/
def Codec.iso {α β : Type} (c : Codec β) (f : α → β) (g : β → α)
    (h : ∀ a, g (f a) = a) : Codec α where
  enc a := c.enc (f a)
  dec l := (c.dec l).map fun p => (g p.1, p.2)
  spec a rest := by
    show (c.dec (c.enc (f a) ++ rest)).map _ = some (a, rest)
    rw [c.spec (f a) rest]
    simp [h]

def natC : Codec Nat where
  enc n := [n]
  dec l :=
    match l with
    | [] => none
    | x :: r => some (x, r)
  spec _ _ := rfl

/-- ZigZag embedding of the integers into the naturals. -/
def zig (i : Int) : Nat :=
  if 0 ≤ i then (2 * i).toNat else (-(2 * i) - 1).toNat

def unzig (n : Nat) : Int :=
  if n % 2 = 0 then ((n / 2 : Nat) : Int) else -(((n / 2 : Nat) : Int) + 1)

theorem unzig_zig (i : Int) : unzig (zig i) = i := by
  unfold zig unzig
  split_ifs <;> omega

def intC : Codec Int := natC.iso zig unzig unzig_zig

def ratC : Codec ℚ where
  enc q := [zig q.num, q.den]
  dec l :=
    match l with
    | x :: y :: r => some (mkRat (unzig x) y, r)
    | _ => none
  spec q rest := by
    show some (mkRat (unzig (zig q.num)) q.den, rest) = some (q, rest)
    rw [unzig_zig, Rat.mkRat_self]

def boolC : Codec Bool where
  enc b := [if b then 1 else 0]
  dec l :=
    match l with
    | 0 :: r => some (false, r)
    | (_ + 1) :: r => some (true, r)
    | [] => none
  spec b rest := by cases b <;> rfl

def charC : Codec Char where
  enc c := [c.toNat]
  dec l :=
    match l with
    | x :: r => some (Char.ofNat x, r)
    | [] => none
  spec c rest := by
    show some (Char.ofNat c.toNat, rest) = some (c, rest)
    rw [Char.ofNat_toNat]

/-- Decode a fixed number of values in sequence. -/
def decN {α : Type} (c : Codec α) : Nat → List Nat → Option (List α × List Nat)
  | 0, l => some ([], l)
  | n + 1, l =>
    match c.dec l with
    | none => none
    | some (a, r) =>
      match decN c n r with
      | none => none
      | some (as, r2) => some (a :: as, r2)

theorem decN_spec {α : Type} (c : Codec α) (as : List α) (rest : List Nat) :
    decN c as.length (as.flatMap c.enc ++ rest) = some (as, rest) := by
  induction as generalizing rest with
  | nil => rfl
  | cons a xs ih =>
    simp only [List.flatMap_cons, List.length_cons, List.append_assoc]
    unfold decN
    rw [c.spec]
    simp [ih]

def listC {α : Type} (c : Codec α) : Codec (List α) where
  enc l := l.length :: l.flatMap c.enc
  dec l :=
    match l with
    | [] => none
    | n :: r => (decN c n r).map fun p => (p.1, p.2)
  spec a rest := by
    show (decN c a.length (a.flatMap c.enc ++ rest)).map _ = some (a, rest)
    rw [decN_spec]
    rfl

def stringC : Codec String :=
  (listC charC).iso String.data String.mk fun _ => rfl

def optionC {α : Type} (c : Codec α) : Codec (Option α) where
  enc o :=
    match o with
    | none => [0]
    | some a => 1 :: c.enc a
  dec l :=
    match l with
    | 0 :: r => some (none, r)
    | (_ + 1) :: r => (c.dec r).map fun p => (some p.1, p.2)
    | [] => none
  spec o rest := by
    cases o with
    | none => rfl
    | some a =>
      show (c.dec (c.enc a ++ rest)).map _ = _
      rw [c.spec]
      rfl

def prodC {α β : Type} (ca : Codec α) (cb : Codec β) : Codec (α × β) where
  enc p := ca.enc p.1 ++ cb.enc p.2
  dec l :=
    match ca.dec l with
    | none => none
    | some (a, r1) =>
      match cb.dec r1 with
      | none => none
      | some (b, r2) => some ((a, b), r2)
  spec p rest := by
    simp only [List.append_assoc, ca.spec, cb.spec]

def sourceC : Codec Source :=
  natC.iso
    (fun s => match s with | .satellite => 0 | .groundControl => 1)
    (fun n => match n with | 0 => .satellite | _ => .groundControl)
    (by intro a; cases a <;> rfl)

def packetTypeC : Codec PacketType :=
  natC.iso
    (fun s => match s with
      | .telemetry => 0 | .command => 1 | .ack => 2 | .emergency => 3 | .heartbeat => 4)
    (fun n => match n with
      | 0 => .telemetry | 1 => .command | 2 => .ack | 3 => .emergency | _ => .heartbeat)
    (by intro a; cases a <;> rfl)

def sensorTypeC : Codec SensorType :=
  natC.iso
    (fun s => match s with | .thermal => 0 | .power => 1 | .attitude => 2)
    (fun n => match n with | 0 => .thermal | 1 => .power | _ => .attitude)
    (by intro a; cases a <;> rfl)

def priorityC : Codec Priority :=
  natC.iso
    (fun s => match s with
      | .emergency => 0 | .critical => 1 | .important => 2 | .normal => 3)
    (fun n => match n with
      | 0 => .emergency | 1 => .critical | 2 => .important | _ => .normal)
    (by intro a; cases a <;> rfl)

def qualityC : Codec Quality :=
  natC.iso
    (fun s => match s with
      | .excellent => 0 | .good => 1 | .fair => 2 | .poor => 3 | .invalid => 4)
    (fun n => match n with
      | 0 => .excellent | 1 => .good | 2 => .fair | 3 => .poor | _ => .invalid)
    (by intro a; cases a <;> rfl)

def statusC : Codec Status :=
  natC.iso
    (fun s => match s with
      | .normal => 0 | .warning => 1 | .critical => 2 | .emergency => 3 | .error => 4)
    (fun n => match n with
      | 0 => .normal | 1 => .warning | 2 => .critical | 3 => .emergency | _ => .error)
    (by intro a; cases a <;> rfl)

def severityC : Codec Severity :=
  natC.iso
    (fun s => match s with
      | .low => 0 | .medium => 1 | .high => 2 | .critical => 3)
    (fun n => match n with
      | 0 => .low | 1 => .medium | 2 => .high | _ => .critical)
    (by intro a; cases a <;> rfl)

def commandTypeC : Codec CommandType :=
  natC.iso
    (fun s => match s with
      | .thermalControl => 0 | .powerControl => 1 | .attitudeControl => 2
      | .emergency => 3 | .recovery => 4 | .diagnostic => 5 | .maintenance => 6
      | .dataRequest => 7)
    (fun n => match n with
      | 0 => .thermalControl | 1 => .powerControl | 2 => .attitudeControl
      | 3 => .emergency | 4 => .recovery | 5 => .diagnostic | 6 => .maintenance
      | _ => .dataRequest)
    (by intro a; cases a <;> rfl)

def targetSystemC : Codec TargetSystem :=
  natC.iso
    (fun s => match s with
      | .allSystems => 0 | .thermalManagement => 1 | .powerManagement => 2
      | .attitudeControl => 3)
    (fun n => match n with
      | 0 => .allSystems | 1 => .thermalManagement | 2 => .powerManagement
      | _ => .attitudeControl)
    (by intro a; cases a <;> rfl)

def sensorReadingC : Codec SensorReading :=
  (prodC natC (prodC sensorTypeC (prodC stringC (prodC stringC (prodC natC (prodC natC
    (prodC ratC (prodC ratC (prodC ratC (prodC ratC (prodC priorityC (prodC qualityC
    (prodC statusC (prodC ratC (prodC ratC (prodC ratC
    (listC (prodC stringC stringC))))))))))))))))))
  |>.iso
    (fun r => (r.sensor_id, r.sensor_type, r.description, r.location, r.timestamp,
      r.sequence_number, r.value1, r.value2, r.value3, r.value4, r.priority,
      r.quality, r.status, r.processing_latency_ms, r.jitter_ms, r.drift_ms,
      r.metadata))
    (fun p =>
      match p with
      | (sid, st, de, lo, ts, sn, v1, v2, v3, v4, pr, qu, stt, pl, ji, dr, md) =>
        ⟨sid, st, de, lo, ts, sn, v1, v2, v3, v4, pr, qu, stt, pl, ji, dr, md⟩)
    (fun _ => rfl)

def packetHeaderC : Codec PacketHeader :=
  (prodC stringC (prodC sourceC (prodC sourceC (prodC packetTypeC (prodC natC
    (prodC natC (prodC natC natC)))))))
  |>.iso
    (fun h => (h.packet_id, h.source, h.destination, h.packet_type,
      h.sequence_number, h.timestamp, h.payload_size_bytes, h.protocol_version))
    (fun p =>
      match p with
      | (pid, so, de, pt, sn, ts, ps, pv) => ⟨pid, so, de, pt, sn, ts, ps, pv⟩)
    (fun _ => rfl)

def commandC : Codec Command :=
  (prodC stringC (prodC commandTypeC (prodC stringC (prodC targetSystemC (prodC natC
    (prodC (optionC natC) (prodC natC (prodC ratC (prodC ratC (prodC ratC (prodC ratC
    (prodC stringC (prodC priorityC (prodC sourceC (prodC sourceC
    (listC (prodC stringC stringC)))))))))))))))))
  |>.iso
    (fun c => (c.command_id, c.command_type, c.description, c.target_system,
      c.timestamp, c.deadline, c.retry_count, c.param1, c.param2, c.param3, c.param4,
      c.text_param, c.priority, c.source, c.destination, c.metadata))
    (fun p =>
      match p with
      | (cid, ct, de, ts, tm, dl, rc, p1, p2, p3, p4, tp, pr, so, dst, md) =>
        ⟨cid, ct, de, ts, tm, dl, rc, p1, p2, p3, p4, tp, pr, so, dst, md⟩)
    (fun _ => rfl)

def ackC : Codec CommandAcknowledgment :=
  (prodC stringC (prodC stringC (prodC (optionC natC) (prodC (optionC natC)
    (prodC (optionC stringC) ratC)))))
  |>.iso
    (fun a => (a.command_id, a.status, a.execution_timestamp,
      a.completion_timestamp, a.error_message, a.execution_time_ms))
    (fun p =>
      match p with
      | (cid, st, et, ct, em, ex) => ⟨cid, st, et, ct, em, ex⟩)
    (fun _ => rfl)

def emergencyDataC : Codec EmergencyData :=
  (prodC stringC (prodC severityC (prodC stringC (prodC stringC (prodC (listC stringC)
    (prodC (listC stringC) (prodC boolC natC)))))))
  |>.iso
    (fun e => (e.alert_id, e.severity, e.alert_type, e.description,
      e.affected_systems, e.recommended_actions, e.auto_recovery_attempted,
      e.timestamp))
    (fun p =>
      match p with
      | (ai, se, aty, de, af, re, ar, ts) => ⟨ai, se, aty, de, af, re, ar, ts⟩)
    (fun _ => rfl)

def systemHealthC : Codec SystemHealth :=
  (prodC stringC (prodC ratC (prodC ratC (prodC ratC (prodC natC (prodC natC
    (prodC natC natC)))))))
  |>.iso
    (fun h => (h.overall_status, h.cpu_usage_percent, h.memory_usage_percent,
      h.disk_usage_percent, h.uptime_seconds, h.active_tasks, h.failed_tasks,
      h.timestamp))
    (fun p =>
      match p with
      | (os, cu, mu, du, up, act, ft, ts) => ⟨os, cu, mu, du, up, act, ft, ts⟩)
    (fun _ => rfl)

def packetPayloadC : Codec PacketPayload where
  enc p :=
    match p with
    | .telemetryData rs => 0 :: (listC sensorReadingC).enc rs
    | .commandData c => 1 :: commandC.enc c
    | .acknowledgmentData a => 2 :: ackC.enc a
    | .emergencyAlert e => 3 :: emergencyDataC.enc e
    | .heartbeatData h => 4 :: systemHealthC.enc h
  dec l :=
    match l with
    | 0 :: r => ((listC sensorReadingC).dec r).map fun p => (.telemetryData p.1, p.2)
    | 1 :: r => (commandC.dec r).map fun p => (.commandData p.1, p.2)
    | 2 :: r => (ackC.dec r).map fun p => (.acknowledgmentData p.1, p.2)
    | 3 :: r => (emergencyDataC.dec r).map fun p => (.emergencyAlert p.1, p.2)
    | 4 :: r => (systemHealthC.dec r).map fun p => (.heartbeatData p.1, p.2)
    | _ => none
  spec p rest := by
    cases p <;>
      simp [(listC sensorReadingC).spec, commandC.spec, ackC.spec,
        emergencyDataC.spec, systemHealthC.spec]

def communicationPacketC : Codec CommunicationPacket :=
  (prodC packetHeaderC (prodC packetPayloadC natC))
  |>.iso
    (fun p => (p.header, p.payload, p.checksum))
    (fun q => match q with | (h, pl, ck) => ⟨h, pl, ck⟩)
    (fun _ => rfl)

def clearHeaderC : Codec ClearHeader :=
  (prodC natC (prodC packetTypeC (prodC natC (prodC sourceC (prodC sourceC
    (prodC natC natC))))))
  |>.iso
    (fun h => (h.protocol_version, h.packet_type, h.sequence_number, h.source,
      h.destination, h.key_id, h.nonce))
    (fun p =>
      match p with
      | (pv, pt, sn, so, de, ki, no) => ⟨pv, pt, sn, so, de, ki, no⟩)
    (fun _ => rfl)

def frameC : Codec EncryptedFrame :=
  (prodC clearHeaderC (listC natC))
  |>.iso
    (fun f => (f.header, f.ciphertext))
    (fun p => match p with | (h, ct) => ⟨h, ct⟩)
    (fun _ => rfl)

/-- Modelled from the spec: byte view of a nonnegative integer, fixed width,
big-endian (used for the u32 length prefix and the 128-bit tag). -/
def beBytes : Nat → Nat → List Nat
  | 0, _ => []
  | w + 1, n => beBytes w (n / 256) ++ [n % 256]

def fromBeBytes (l : List Nat) : Nat :=
  l.foldl (fun acc b => acc * 256 + b) 0

theorem beBytes_length (w n : Nat) : (beBytes w n).length = w := by
  induction w generalizing n with
  | zero => rfl
  | succ k ih => simp [beBytes, ih]

theorem fromBeBytes_beBytes (w n : Nat) : fromBeBytes (beBytes w n) = n % 256 ^ w := by
  induction w generalizing n with
  | zero => simp [beBytes, fromBeBytes, Nat.mod_one]
  | succ k ih =>
    unfold beBytes
    unfold fromBeBytes at ih ⊢
    rw [List.foldl_append]
    simp only [List.foldl]
    rw [ih]
    rw [show (256 : Nat) ^ (k + 1) = 256 * 256 ^ k by ring, Nat.mod_mul]
    ring

/-- Modelled from the spec: the ChaCha20 keystream of the external
`chacha20poly1305` crate, abstracted as a deterministic byte stream derived
from key and nonce. -/
def keystream (key nonce n : Nat) : List Nat :=
  (List.range n).map fun i => (key + (nonce + 1) * (2 * i + 3)) % 256

/-- Modelled from the spec: the Poly1305 authenticator over AAD and
ciphertext, abstracted as a deterministic 128-bit digest under the key and
nonce. -/
def polyTag (key nonce : Nat) (aad ct : List Nat) : Nat :=
  ((aad.foldl (fun acc b => acc * 257 + b + 1) 1) * 65539
    + (ct.foldl (fun acc b => acc * 257 + b + 1) 1) * 3
    + key * 7 + nonce) % 2 ^ 128

/-- Modelled from the spec: ChaCha20-Poly1305 `encrypt` — XOR the message
with the keystream and append the 16 tag bytes. -/
def aeadEncrypt (key nonce : Nat) (aad msg : List Nat) : List Nat :=
  let body := List.zipWith Nat.xor (keystream key nonce msg.length) msg
  body ++ beBytes 16 (polyTag key nonce aad body)

/-- Modelled from the spec: ChaCha20-Poly1305 `decrypt` — split off the 16
tag bytes, verify them over AAD and body, then XOR with the keystream. -/
def aeadDecrypt (key nonce : Nat) (aad ct : List Nat) : Option (List Nat) :=
  if ct.length < 16 then none
  else
    let body := ct.take (ct.length - 16)
    let tag := ct.drop (ct.length - 16)
    if beBytes 16 (polyTag key nonce aad body) = tag then
      some (List.zipWith Nat.xor (keystream key nonce body.length) body)
    else none

theorem keystream_length (key nonce n : Nat) : (keystream key nonce n).length = n := by
  simp [keystream]

theorem zipWith_xor_involutive (ks msg : List Nat) (h : ks.length = msg.length) :
    List.zipWith Nat.xor ks (List.zipWith Nat.xor ks msg) = msg := by
  induction ks generalizing msg with
  | nil =>
    cases msg with
    | nil => rfl
    | cons m ms => simp at h
  | cons k ks ih =>
    cases msg with
    | nil => simp at h
    | cons m ms =>
      have hx : k ^^^ (k ^^^ m) = m := by
        rw [← Nat.xor_assoc, Nat.xor_self, Nat.zero_xor]
      simp only [List.zipWith]
      show (k ^^^ (k ^^^ m)) :: List.zipWith Nat.xor ks (List.zipWith Nat.xor ks ms)
        = m :: ms
      rw [hx, ih ms (by simpa using h)]

theorem aeadDecrypt_encrypt (key nonce : Nat) (aad msg : List Nat) :
    aeadDecrypt key nonce aad (aeadEncrypt key nonce aad msg) = some msg := by
  have hks : (keystream key nonce msg.length).length = msg.length :=
    keystream_length ..
  unfold aeadEncrypt aeadDecrypt
  set body := List.zipWith Nat.xor (keystream key nonce msg.length) msg with hbodydef
  set tagB := beBytes 16 (polyTag key nonce aad body) with htagdef
  have hbody : body.length = msg.length := by
    rw [hbodydef]
    simp [List.length_zipWith, hks]
  have htag : tagB.length = 16 := by rw [htagdef]; exact beBytes_length ..
  have hlen : (body ++ tagB).length = msg.length + 16 := by simp [hbody, htag]
  rw [hlen]
  rw [if_neg (by omega : ¬ msg.length + 16 < 16)]
  have hsub : msg.length + 16 - 16 = msg.length := by omega
  rw [hsub]
  rw [List.take_left' hbody, List.drop_left' hbody]
  rw [if_pos htagdef.symm]
  rw [hbody, hbodydef]
  rw [zipWith_xor_involutive _ _ hks]

/-- The clear header built by `seal_to_bytes` (lib.rs lines 989-997): the
packet's routing fields under the context's key id, with the protocol
version hardcoded to `PROTOCOL_VERSION`. -/
def sealClear (ctx : CryptoContext) (nonce : Nat) (packet : CommunicationPacket) :
    ClearHeader :=
  { protocol_version := PROTOCOL_VERSION
    packet_type := packet.header.packet_type
    sequence_number := packet.header.sequence_number
    source := packet.header.source
    destination := packet.header.destination
    key_id := ctx.key_id
    nonce := nonce }

/-- The encrypted frame built by `seal_to_bytes` (lib.rs lines 999-1009):
the serialized packet encrypted under the serialized clear header as AAD. -/
def sealFrame (ctx : CryptoContext) (nonce : Nat) (packet : CommunicationPacket) :
    EncryptedFrame :=
  { header := sealClear ctx nonce packet
    ciphertext := aeadEncrypt ctx.key nonce
      (clearHeaderC.enc (sealClear ctx nonce packet))
      (communicationPacketC.enc packet) }

/-- `CryptoContext::seal_to_bytes` (lib.rs lines 977-1023); the fresh CSPRNG
nonce is passed in as `nonce`. -/
def seal_to_bytes (ctx : CryptoContext) (nonce : Nat) (packet : CommunicationPacket) :
    Except String (List Nat) :=
  if (communicationPacketC.enc packet).length > MAX_PACKET_SIZE then
    .error ("Packet too large before encryption: "
      ++ toString (communicationPacketC.enc packet).length)
  else if (frameC.enc (sealFrame ctx nonce packet)).length > MAX_PACKET_SIZE then
    .error ("Encrypted frame too large: "
      ++ toString (frameC.enc (sealFrame ctx nonce packet)).length)
  else
    .ok (beBytes 4 (frameC.enc (sealFrame ctx nonce packet)).length
      ++ frameC.enc (sealFrame ctx nonce packet))

/-- The per-frame stage of `open_from_bytes` (lib.rs lines 1043-1072):
key-id check, decryption with the re-serialized clear header as AAD, packet
deserialization, and the final clear-header consistency check. -/
def openFrame (ctx : CryptoContext) (frame : EncryptedFrame) :
    Except String CommunicationPacket :=
  if frame.header.key_id ≠ ctx.key_id then .error "key id mismatch"
  else
    match aeadDecrypt ctx.key frame.header.nonce
        (clearHeaderC.enc frame.header) frame.ciphertext with
    | some plaintext =>
      match communicationPacketC.dec plaintext with
      | some (packet, []) =>
        if packet.header.protocol_version ≠ frame.header.protocol_version
            ∨ packet.header.packet_type ≠ frame.header.packet_type
            ∨ packet.header.sequence_number ≠ frame.header.sequence_number
            ∨ packet.header.source ≠ frame.header.source
            ∨ packet.header.destination ≠ frame.header.destination then
          .error "header mismatch between clear header and decrypted packet"
        else .ok packet
      | _ => .error "packet deserialization"
    | none => .error "authentication/decryption failed"

/-- `CryptoContext::open_from_bytes` (lib.rs lines 1027-1073): length
prefix validation and frame deserialization, then `openFrame`. -/
def open_from_bytes (ctx : CryptoContext) (buf : List Nat) :
    Except String CommunicationPacket :=
  if buf.length < 4 then .error "insufficient data: need 4-byte length prefix"
  else
    let len := fromBeBytes (buf.take 4)
    if buf.length < 4 + len then .error "insufficient data"
    else
      match frameC.dec ((buf.drop 4).take len) with
      | some (frame, []) => openFrame ctx frame
      | _ => .error "frame deserialization"

theorem open_from_bytes_enc (ctx : CryptoContext) (frame : EncryptedFrame)
    (h : (frameC.enc frame).length < 256 ^ 4) :
    open_from_bytes ctx (beBytes 4 (frameC.enc frame).length ++ frameC.enc frame)
      = openFrame ctx frame := by
  have hlen4 : (beBytes 4 (frameC.enc frame).length).length = 4 := beBytes_length ..
  have hbuf : (beBytes 4 (frameC.enc frame).length ++ frameC.enc frame).length
      = 4 + (frameC.enc frame).length := by simp [hlen4]
  have htake : (beBytes 4 (frameC.enc frame).length ++ frameC.enc frame).take 4
      = beBytes 4 (frameC.enc frame).length := List.take_left' hlen4
  have hdrop : (beBytes 4 (frameC.enc frame).length ++ frameC.enc frame).drop 4
      = frameC.enc frame := List.drop_left' hlen4
  have h32 : fromBeBytes (beBytes 4 (frameC.enc frame).length)
      = (frameC.enc frame).length := by
    rw [fromBeBytes_beBytes]
    exact Nat.mod_eq_of_lt h
  have hdec : frameC.dec (frameC.enc frame) = some (frame, []) := by
    have hq := frameC.spec frame []
    rwa [List.append_nil] at hq
  simp only [open_from_bytes, hbuf, htake, hdrop, h32, List.take_length, hdec]
  rw [if_neg (by omega : ¬ 4 + (frameC.enc frame).length < 4),
    if_neg (by omega : ¬ 4 + (frameC.enc frame).length < 4 + (frameC.enc frame).length)]

theorem openFrame_sealed (ctx : CryptoContext) (nonce : Nat)
    (P : CommunicationPacket) (hv : P.header.protocol_version = PROTOCOL_VERSION) :
    openFrame ctx (sealFrame ctx nonce P) = .ok P := by
  have hdecP : communicationPacketC.dec (communicationPacketC.enc P) = some (P, []) := by
    have hq := communicationPacketC.spec P []
    rwa [List.append_nil] at hq
  simp [openFrame, sealFrame, sealClear, aeadDecrypt_encrypt, hdecP, hv]

/-- C2 (amended): for every context, nonce, and packet `P` whose header
carries `protocol_version = PROTOCOL_VERSION`, whenever `seal_to_bytes`
succeeds, `open_from_bytes` on its output succeeds and returns a packet
structurally equal to `P` — header and payload, hence in particular
`sequence_number`, `packet_type`, `source` and `destination` are
preserved. -/
theorem c2_aead_roundtrip (ctx : CryptoContext) (nonce : Nat)
    (P : CommunicationPacket) (hv : P.header.protocol_version = PROTOCOL_VERSION)
    (bytes : List Nat) (hs : seal_to_bytes ctx nonce P = .ok bytes) :
    open_from_bytes ctx bytes = .ok P := by
  unfold seal_to_bytes at hs
  by_cases h1 : (communicationPacketC.enc P).length > MAX_PACKET_SIZE
  · rw [if_pos h1] at hs
    exact absurd hs (by simp)
  · rw [if_neg h1] at hs
    by_cases h2 : (frameC.enc (sealFrame ctx nonce P)).length > MAX_PACKET_SIZE
    · rw [if_pos h2] at hs
      exact absurd hs (by simp)
    · rw [if_neg h2] at hs
      injection hs with hb
      rw [← hb]
      have hlt : (frameC.enc (sealFrame ctx nonce P)).length < 256 ^ 4 := by
        have hm : MAX_PACKET_SIZE < 256 ^ 4 := by norm_num [MAX_PACKET_SIZE]
        omega
      rw [open_from_bytes_enc ctx (sealFrame ctx nonce P) hlt]
      exact openFrame_sealed ctx nonce P hv

/-- A concrete context for the C2 demonstrations. -/
def demoCtx : CryptoContext := ⟨1, 5⟩

/-- A concrete telemetry header with the given protocol version. -/
def demoHeader (pv : Nat) : PacketHeader :=
  { packet_id := "p", source := .satellite, destination := .groundControl,
    packet_type := .telemetry, sequence_number := 7, timestamp := 0,
    payload_size_bytes := 0, protocol_version := pv }

/-- A concrete packet carrying `protocol_version = 2`, different from
`PROTOCOL_VERSION = 1`. -/
def badPacket : CommunicationPacket :=
  { header := demoHeader 2, payload := .telemetryData [], checksum := 0 }

/-- The same concrete packet with the correct protocol version. -/
def goodPacket : CommunicationPacket :=
  { header := demoHeader PROTOCOL_VERSION, payload := .telemetryData [], checksum := 0 }

/-- C2 counterexample: on a packet whose header carries protocol_version 2,
seal succeeds but open rejects the sealed bytes — seal always writes
`PROTOCOL_VERSION` (1) into the clear header, and open's final consistency
check compares it against the decrypted packet's own header.  The claim's
round-trip therefore fails for this packet. -/
theorem c2_counterexample :
    seal_to_bytes demoCtx 9 badPacket
      = .ok ((seal_to_bytes demoCtx 9 badPacket).toOption.getD [])
    ∧ open_from_bytes demoCtx ((seal_to_bytes demoCtx 9 badPacket).toOption.getD [])
      = .error "header mismatch between clear header and decrypted packet" := by
  constructor
  · rfl
  · rfl

/-- Witness for C2 on a concrete version-1 telemetry packet. -/
theorem c2_aead_roundtrip_witness :
    open_from_bytes demoCtx ((seal_to_bytes demoCtx 9 goodPacket).toOption.getD [])
      = .ok goodPacket :=
  c2_aead_roundtrip demoCtx 9 goodPacket rfl _ (by rfl)

end RTS
